import Mathlib

/-!
# FlowTypeQuery: the "TypeQuery" node of the flow editor

A shallow embedding of `FlowTypeQuery.js` (`getComponent`, its `builder`, the control
handler, the `then` callback of the catalog fetch and the `change` listener), followed by
theorems about it.

Conventions of the embedding

* JavaScript values that the code only compares with `===` / `!==` are `JsVal`
  (numbers are left out: strict equality on them is not structural).
* The backing record captured as `scopedDbNode` is `DbRef`: `undefined`, `null`, or an
  object with the two fields the code touches.
* A JavaScript function that may raise returns a `Completion`: either it finished
  normally in a state, or it raised in the state reached at the raise.
* `D3NE.Node`, `D3NE.Output`, `D3NE.Control` and the DOM `select` element are modelled by
  the fields and methods the code uses.
* `Persistence.getNodesByClass` is not part of this file; it returns a promise, and what the
  promise does later is an input (`FetchOutcome`).
-/

set_option autoImplicit false

namespace FlowTypeQuery

/-! ## Values -/

/-- JavaScript values compared by strict equality. `obj ref` is a reference to some object,
equal only to the same reference. -/
inductive JsVal where
  | undefined
  | null
  | bool (b : Bool)
  | str (s : String)
  | obj (ref : Nat)
  deriving DecidableEq, Repr

/-- The fields of a backing record that the code reads or writes. -/
structure DbNode where
  dataType : JsVal
  isStartNodeOfContainer : JsVal
  deriving DecidableEq, Repr

/-- The value of `scopedDbNode` (`this.dbNode` when `getComponent` ran). -/
inductive DbRef where
  | undefined
  | null
  | obj (r : DbNode)
  deriving DecidableEq, Repr

/-- One entry of the catalog response (`schemaNode.name`, `el.category`). -/
structure SchemaNode where
  name : String
  category : JsVal
  deriving DecidableEq, Repr

/-- What a JavaScript `throw` carries: a `TypeError` raised by the language, or the
`Error` raised by `D3NE.Control.getNode`. -/
inductive JsError where
  | typeError
  | error
  deriving DecidableEq, Repr

/-- Result of running a function body on a state. -/
inductive Completion (σ : Type) where
  | normal (s : σ)
  | throw (e : JsError) (s : σ)
  deriving DecidableEq, Repr

/-- State reached, whether or not the body raised. -/
def Completion.state {σ : Type} : Completion σ → σ
  | .normal s => s
  | .throw _ s => s

/-- The error raised, if any. -/
def Completion.raised {σ : Type} : Completion σ → Option JsError
  | .normal _ => none
  | .throw e _ => some e

/-- Sequencing: the second body runs only when the first finished normally. -/
def Completion.bind {σ : Type} (c : Completion σ) (f : σ → Completion σ) : Completion σ :=
  match c with
  | .normal s => f s
  | .throw e s => .throw e s

/-- Apply a state change to the state a completion carries. -/
def Completion.map {σ τ : Type} (f : σ → τ) : Completion σ → Completion τ
  | .normal s => .normal (f s)
  | .throw e s => .throw e (f s)

/-! ## The DOM `select` element -/

/-- An `option` element: its text, value, disabled state and selectedness. -/
structure OptionEl where
  text : String
  value : String
  disabled : Bool
  selected : Bool
  deriving DecidableEq, Repr

/-- What an option shows and submits, without its selectedness. -/
def OptionEl.label (o : OptionEl) : String × String × Bool :=
  (o.text, o.value, o.disabled)

/-- A single-choice `select` element (no `multiple`, display size 1): its list of options in
tree order, the number of registered `change` listeners, and whether it is still attached to
the document. -/
structure SelectEl where
  options : List OptionEl
  changeListeners : Nat
  connected : Bool
  deriving DecidableEq, Repr

/-- Selectedness setting, first case: no option is selected, so the first option that is not
disabled becomes selected. -/
def selectFirstEnabled : List OptionEl → List OptionEl
  | [] => []
  | o :: os =>
    if o.disabled then o :: selectFirstEnabled os
    else { o with selected := true } :: os

/-- Selectedness setting, second case: of several selected options only the last stays
selected. -/
def keepLastSelected : List OptionEl → List OptionEl
  | [] => []
  | o :: os =>
    if o.selected && os.any (fun p => p.selected) then
      { o with selected := false } :: keepLastSelected os
    else o :: keepLastSelected os

/-- The selectedness setting algorithm of a single-choice `select` with display size 1. -/
def selectednessSetting (os : List OptionEl) : List OptionEl :=
  if os.any (fun p => p.selected) then keepLastSelected os else selectFirstEnabled os

/-- The method `element.add(option)`: the option is appended, then selectedness is set. -/
def SelectEl.add (el : SelectEl) (o : OptionEl) : SelectEl :=
  { el with options := selectednessSetting (el.options ++ [o]) }

/-- The getter `element.value`: the value of the first selected option, else `""`. -/
def SelectEl.value (el : SelectEl) : String :=
  match el.options.find? (fun o => o.selected) with
  | some o => o.value
  | none => ""

/-- The method `element.addEventListener('change', ...)`. -/
def SelectEl.addChangeListener (el : SelectEl) : SelectEl :=
  { el with changeListeners := el.changeListeners + 1 }

/-- The markup given to `new D3NE.Control(...)` on line 29. -/
def controlHtml : String :=
  "<select class=\"control-select\"><option disabled selected>-</option></select>"

/-- The element that `controlHtml` renders to: one option, disabled and selected, whose text
and value are both `-`. -/
def renderedSelect : SelectEl :=
  { options := [{ text := "-", value := "-", disabled := true, selected := true }],
    changeListeners := 0,
    connected := true }

/-! ## D3NE nodes -/

/-- A `D3NE.Socket`. -/
structure Socket where
  id : String
  name : String
  deriving DecidableEq, Repr

/-- A `D3NE.Output`: title, socket (`none` when `getSocket` gave `undefined`) and whether
several connections are allowed. -/
structure Output where
  title : String
  socket : Option Socket
  multipleConnections : Bool
  deriving DecidableEq, Repr

/-- A `D3NE.Input`, with the same fields as an output. -/
structure Input where
  title : String
  socket : Option Socket
  multipleConnections : Bool
  deriving DecidableEq, Repr

/-- A `D3NE.Control`: its markup, whether `parent` is set, and the `id` and `name`
properties (`none` while unset). -/
structure Control where
  html : String
  parent : Bool
  id : Option String
  name : Option String
  deriving DecidableEq, Repr

/-- A value kept in `node.data`: a plain value, or the reference held by `scopedDbNode`
(the same object, so a write through it is a write to the backing record). -/
inductive DataVal where
  | val (v : JsVal)
  | scopedDbNode
  deriving DecidableEq, Repr

/-- The object `node.data`: keys in insertion order. -/
abbrev Data := List (String × DataVal)

/-- Reading `data[key]`: a missing key reads as `undefined`. -/
def Data.get : Data → String → DataVal
  | [], _ => .val .undefined
  | p :: ps, key => if p.1 = key then p.2 else Data.get ps key

/-- Assigning `data[key] = v`: an existing key keeps its place, a new key goes last. -/
def Data.put : Data → String → DataVal → Data
  | [], key, v => [(key, v)]
  | p :: ps, key, v => if p.1 = key then (p.1, v) :: ps else p :: Data.put ps key v

/-- A `D3NE.Node`. `isStartNode` is `none` until the builder assigns it. -/
structure Node where
  title : String
  inputs : List Input
  outputs : List Output
  controls : List Control
  data : Data
  isStartNode : Option Bool
  deriving DecidableEq, Repr

/-- The node made by `new D3NE.Node(title)`. -/
def Node.fresh (title : String) : Node :=
  { title := title, inputs := [], outputs := [], controls := [], data := [],
    isStartNode := none }

/-- The method `node.addOutput(output)` for an output not yet added to a node. -/
def Node.addOutput (n : Node) (o : Output) : Node :=
  { n with outputs := n.outputs ++ [o] }

/-- The method `node.addControl(control)`: sets the control's parent and appends it. -/
def Node.addControl (n : Node) (c : Control) : Node :=
  { n with controls := n.controls ++ [{ c with parent := true }] }

/-! ## The builder (lines 18-67) -/

/-- The condition of line 22. Reading a property of `null` raises. -/
def startNodeCondition : DbRef → Except JsError Bool
  | .undefined => .ok false
  | .null => .error .typeError
  | .obj r =>
    .ok (decide (r.isStartNodeOfContainer ≠ .undefined) && decide (r.isStartNodeOfContainer ≠ .null))

/-- The function `builder(node)`. `getSocket` stands for `FlowSockets.getInst().getSocket`. The
control handler is only stored here; it runs when the control is rendered. -/
def builder (getSocket : String → Option Socket) (scopedDbNode : DbRef) (node : Node) :
    Completion Node :=
  let dataTarget : Output :=
    { title := "DataTarget", socket := getSocket "dataTarget", multipleConnections := true }
  match startNodeCondition scopedDbNode with
  | .error e => .throw e node
  | .ok b =>
    let node := { node with isStartNode := some b }
    let dataType : Control := { html := controlHtml, parent := false, id := none, name := none }
    .normal ((node.addOutput dataTarget).addControl dataType)

/-! ## The rendered control (lines 29-62) -/

/-- Everything the closures of one built node can reach: the captured backing record, the
node, the `select` element rendered for the control, and the number of `then` callbacks
registered on a catalog promise that has not settled yet. -/
structure World where
  scopedDbNode : DbRef
  node : Node
  element : SelectEl
  pendingThen : Nat
  deriving DecidableEq, Repr

/-- The state when the editor has rendered the control of a built node and is about to call
its handler. -/
def World.render (scopedDbNode : DbRef) (node : Node) : World :=
  { scopedDbNode := scopedDbNode, node := node, element := renderedSelect, pendingThen := 0 }

/-- Removal of the node from the canvas: the element leaves the document. The closures keep
their reference to it. -/
def World.detach (w : World) : World :=
  { w with element := { w.element with connected := false } }

/-- The method `control.putData(key, v)` on the control at position `ci` of `node.controls`.
`getNode` raises an `Error` when the control has no parent; calling the method on a missing
control is a `TypeError`. -/
def putData (ci : Nat) (key : String) (v : DataVal) (w : World) : Completion World :=
  match w.node.controls[ci]? with
  | none => .throw .typeError w
  | some c =>
    if c.parent then
      .normal { w with node := { w.node with data := w.node.data.put key v } }
    else .throw .error w

/-- Lines 39-45 for a backing record whose `dataType` is `dataType`: a new option whose text
and value are the entry name, selected when the name is the record's data type. -/
def newOption (dataType : JsVal) (schemaNode : SchemaNode) : OptionEl :=
  let option : OptionEl := { text := "", value := "", disabled := false, selected := false }
  let option := { option with text := schemaNode.name }
  let option := { option with value := schemaNode.name }
  if decide (dataType ≠ .undefined) && decide (dataType ≠ .null)
      && decide (dataType = .str schemaNode.name) then
    { option with selected := true }
  else option

/-- The loop of lines 38-48. Line 43 reads `scopedDbNode.dataType`, which raises when
`scopedDbNode` is `undefined` or `null`; the option made so far is then not added. -/
def populate : List SchemaNode → World → Completion World
  | [], w => .normal w
  | schemaNode :: rest, w =>
    match w.scopedDbNode with
    | .obj r =>
      populate rest { w with element := w.element.add (newOption r.dataType schemaNode) }
    | _ => .throw .typeError w

/-- The callback given to `then` (lines 32-50) applied to the catalog response. -/
def thenCallback (result : List SchemaNode) (w : World) : Completion World :=
  let filteredResults := result.filter (fun el => decide (el.category ≠ .str "html"))
  populate filteredResults w

/-- Modelled from the spec: `Persistence.getNodesByClass` (its file is not among the sources)
returns a promise of the list of catalog entries. This is what that promise eventually does. -/
inductive FetchOutcome where
  | resolved (result : List SchemaNode)
  | rejected
  deriving DecidableEq, Repr

/-- The catalog promise settles. With no callback registered nothing happens. On resolution
the callback runs; an error it raises rejects the promise that `then` returned. On rejection
the callback does not run: `then` was given no rejection handler. -/
def fetchSettles (outcome : FetchOutcome) (w : World) : Completion World :=
  match w.pendingThen with
  | 0 => .normal w
  | n + 1 =>
    let w := { w with pendingThen := n }
    match outcome with
    | .resolved result => thenCallback result w
    | .rejected => .normal w

/-- Lines 55-56: `control.id = "dataType"; control.name = "Type"`. -/
def nameControl (ci : Nat) (w : World) : World :=
  match w.node.controls[ci]? with
  | none => w
  | some c =>
    { w with node := { w.node with
        controls := w.node.controls.set ci { c with id := some "dataType", name := some "Type" } } }

/-- The control handler `(element, control) => ...` (lines 29-62), for the control at position
`ci` of `node.controls`. The fetch is issued and its callback registered first; the callback
itself runs later (`fetchSettles`). -/
def controlSetup (ci : Nat) (w : World) : Completion World :=
  let w := { w with pendingThen := w.pendingThen + 1 }
  (putData ci "dataType" (.val (.str w.element.value)) w).bind fun w =>
  (putData ci "dbNode" .scopedDbNode w).bind fun w =>
  let w := nameControl ci w
  .normal { w with element := w.element.addChangeListener }

/-- The write of line 60, `node.data['dbNode'].dataType = v`, in strict mode: it raises on
`undefined`, `null` and primitive values; through the captured reference it writes the backing
record; through any other object reference it writes an object that is not part of `World`. -/
def writeDataType (v : String) (w : World) : Completion World :=
  match w.node.data.get "dbNode" with
  | .scopedDbNode =>
    match w.scopedDbNode with
    | .obj r => .normal { w with scopedDbNode := .obj { r with dataType := .str v } }
    | _ => .throw .typeError w
  | .val (.obj _) => .normal w
  | .val _ => .throw .typeError w

/-- The `change` listener (lines 58-61). -/
def changeListener (ci : Nat) (w : World) : Completion World :=
  let v := w.element.value
  (putData ci "dataType" (.val (.str v)) w).bind fun w => writeDataType v w

/-- A built node is rendered and the handler of the control the builder appended (it sits
after the controls the node already had) is called. When the builder raises nothing is
rendered and the handler does not run. -/
def mount (getSocket : String → Option Socket) (scopedDbNode : DbRef) (node : Node) :
    Completion World :=
  match builder getSocket scopedDbNode node with
  | .normal built => controlSetup node.controls.length (World.render scopedDbNode built)
  | .throw e left => .throw e (World.render scopedDbNode left)

/-! ## Auxiliary definitions used in the statements and proofs -/

/-- Values of the selected options, in tree order. -/
def selectedValues (os : List OptionEl) : List String :=
  (os.filter (fun o => o.selected)).map (fun o => o.value)

/-- An option with its selectedness cleared. -/
def OptionEl.deselect (o : OptionEl) : OptionEl :=
  { o with selected := false }

/-- The options the loop appends for a record whose data type is `dataType`, added one by
one. -/
def addAll (dataType : JsVal) (entries : List SchemaNode) (el : SelectEl) : SelectEl :=
  entries.foldl (fun el s => el.add (newOption dataType s)) el

/-- The entries the callback keeps (lines 34-36). -/
def keptEntries (result : List SchemaNode) : List SchemaNode :=
  result.filter (fun el => decide (el.category ≠ .str "html"))

/-- The world a mount ends in when the condition of line 22 evaluates to `b`. -/
def mounted (getSocket : String → Option Socket) (scopedDbNode : DbRef) (node : Node)
    (b : Bool) : World :=
  { scopedDbNode := scopedDbNode,
    node :=
      { node with
        isStartNode := some b,
        outputs := node.outputs ++
          [{ title := "DataTarget", socket := getSocket "dataTarget", multipleConnections := true }],
        controls := node.controls ++
          [{ html := controlHtml, parent := true, id := some "dataType", name := some "Type" }],
        data := (node.data.put "dataType" (.val (.str "-"))).put "dbNode" .scopedDbNode },
    element := { renderedSelect with changeListeners := 1 },
    pendingThen := 1 }

/-! ## Lemmas on `node.data` -/

theorem Data.get_put_same (d : Data) (key : String) (v : DataVal) :
    (d.put key v).get key = v := by
  induction d with
  | nil => simp [Data.put, Data.get]
  | cons p ps ih =>
    by_cases hp : p.1 = key
    · simp [Data.put, Data.get, hp]
    · simp [Data.put, Data.get, hp, ih]

theorem Data.get_put_other (d : Data) (key other : String) (v : DataVal) (h : other ≠ key) :
    (d.put key v).get other = d.get other := by
  have hko : ¬ key = other := fun e => h e.symm
  induction d with
  | nil => simp [Data.put, Data.get, hko]
  | cons p ps ih =>
    by_cases hp : p.1 = key
    ·       simp only [Data.put, Data.get, hp, if_true, hko, if_false]
    · by_cases ho : p.1 = other
      · simp only [Data.put, Data.get, if_neg hp, if_pos ho]
      · simp only [Data.put, Data.get, if_neg hp, if_neg ho, ih]

theorem Data.put_put_same (d : Data) (key : String) (v : DataVal) :
    (d.put key v).put key v = d.put key v := by
  induction d with
  | nil => simp [Data.put]
  | cons p ps ih =>
    by_cases hp : p.1 = key
    · simp [Data.put, hp]
    · simp [Data.put, hp, ih]

/-! ## Lemmas on the `select` element -/

theorem selectFirstEnabled_label (os : List OptionEl) :
    (selectFirstEnabled os).map OptionEl.label = os.map OptionEl.label := by
  induction os with
  | nil => rfl
  | cons o os ih =>
    by_cases hd : o.disabled = true
    · simp [selectFirstEnabled, hd, ih]
    · simp [selectFirstEnabled, hd, OptionEl.label]

theorem keepLastSelected_label (os : List OptionEl) :
    (keepLastSelected os).map OptionEl.label = os.map OptionEl.label := by
  induction os with
  | nil => rfl
  | cons o os ih =>
    unfold keepLastSelected
    split
    · simp [ih, OptionEl.label]
    · simp [ih]

theorem selectednessSetting_label (os : List OptionEl) :
    (selectednessSetting os).map OptionEl.label = os.map OptionEl.label := by
  unfold selectednessSetting
  split
  · exact keepLastSelected_label os
  · exact selectFirstEnabled_label os

theorem keepLastSelected_append_selected (os : List OptionEl) (o : OptionEl)
    (h : o.selected = true) :
    keepLastSelected (os ++ [o]) = os.map OptionEl.deselect ++ [o] := by
  induction os with
  | nil => simp [keepLastSelected]
  | cons p ps ih =>
    by_cases hp : p.selected = true
    · simp [keepLastSelected, hp, h, ih, OptionEl.deselect]
    · have hp2 : p.selected = false := by simpa using hp
      have : p.deselect = p := by
        cases p
        simp_all [OptionEl.deselect]
      simp [keepLastSelected, hp2, ih, this]

theorem keepLastSelected_of_le_one (os : List OptionEl)
    (h : (os.filter (fun o => o.selected)).length ≤ 1) : keepLastSelected os = os := by
  induction os with
  | nil => rfl
  | cons p ps ih =>
    by_cases hp : p.selected = true
    · have hnil : ps.filter (fun o => o.selected) = [] := by
        simp only [List.filter_cons, hp, if_true, List.length_cons] at h
        exact List.length_eq_zero.mp (by omega)
      have hany : ps.any (fun o => o.selected) = false := by
        rw [List.filter_eq_nil_iff] at hnil
        simpa using hnil
      have hps := ih (by simp [hnil])
      simp [keepLastSelected, hp, hany, hps]
    · have hp2 : p.selected = false := by simpa using hp
      have hps := ih (by simpa [List.filter_cons, hp2] using h)
      simp [keepLastSelected, hp2, hps]

theorem selectedValues_map_deselect (os : List OptionEl) :
    selectedValues (os.map OptionEl.deselect) = [] := by
  induction os with
  | nil => rfl
  | cons p ps ih =>
    simp [selectedValues, OptionEl.deselect, List.filter_cons]

/-- Adding a selected option leaves it as the only selected one. -/
theorem selectedValues_add_selected (os : List OptionEl) (o : OptionEl)
    (h : o.selected = true) :
    selectedValues (selectednessSetting (os ++ [o])) = [o.value] := by
  have hany : (os ++ [o]).any (fun p => p.selected) = true := by simp [h]
  unfold selectednessSetting
  rw [if_pos hany, keepLastSelected_append_selected os o h]
  have := selectedValues_map_deselect os
  unfold selectedValues at this ⊢
  rw [List.filter_append, List.map_append, this]
  simp [h]

/-- Adding an unselected option to a list with one selected option changes nothing else. -/
theorem selectednessSetting_append_unselected (os : List OptionEl) (o : OptionEl) (v : String)
    (h : o.selected = false) (hv : selectedValues os = [v]) :
    selectednessSetting (os ++ [o]) = os ++ [o] := by
  have hlen : (os.filter (fun o => o.selected)).length = 1 := by
    have := congrArg List.length hv
    simpa [selectedValues] using this
  have hany : (os ++ [o]).any (fun p => p.selected) = true := by
    have hne : os.filter (fun o => o.selected) ≠ [] := by
      intro e
      rw [e] at hlen
      simp at hlen
    rw [Ne, List.filter_eq_nil_iff] at hne
    push_neg at hne
    obtain ⟨p, hp, hsel⟩ := hne
    simp only [List.any_append, Bool.or_eq_true, List.any_eq_true]
    exact Or.inl ⟨p, hp, hsel⟩
  unfold selectednessSetting
  rw [if_pos hany]
  apply keepLastSelected_of_le_one
  simp [List.filter_append, h, hlen]

theorem SelectEl.value_of_selectedValues (el : SelectEl) (v : String)
    (h : selectedValues el.options = [v]) : el.value = v := by
  unfold SelectEl.value
  generalize el.options = os at h
  induction os with
  | nil => simp [selectedValues] at h
  | cons p ps ih =>
    by_cases hp : p.selected = true
    · simp only [selectedValues, List.filter_cons, hp, if_true, List.map_cons,
        List.cons.injEq] at h
      simp [List.find?, hp, h.1]
    · have hp2 : p.selected = false := by simpa using hp
      simp only [selectedValues, List.filter_cons, hp2] at h
      simpa [List.find?, hp2] using ih h

/-! ## Lemmas on the steps -/

theorem newOption_label (d : JsVal) (s : SchemaNode) :
    (newOption d s).label = (s.name, s.name, false) := by
  unfold newOption
  split <;> rfl

theorem newOption_selected (d : JsVal) (s : SchemaNode) :
    (newOption d s).selected = true ↔ d ≠ .undefined ∧ d ≠ .null ∧ d = .str s.name := by
  unfold newOption
  split
  · rename_i h
    simp only [Bool.and_eq_true, decide_eq_true_eq] at h
    simpa using ⟨h.1.1, h.1.2, h.2⟩
  · rename_i h
    simp only [Bool.and_eq_true, decide_eq_true_eq] at h
    simp only [Bool.false_eq_true, false_iff]
    intro hc
    exact h ⟨⟨hc.1, hc.2.1⟩, hc.2.2⟩

theorem populate_obj (r : DbNode) (entries : List SchemaNode) (w : World)
    (h : w.scopedDbNode = .obj r) :
    populate entries w
      = .normal { w with element := addAll r.dataType entries w.element } := by
  induction entries generalizing w with
  | nil => simp [populate, addAll]
  | cons s rest ih =>
    simp only [populate, h]
    rw [ih _ rfl]
    simp [addAll]

theorem addAll_label (d : JsVal) (entries : List SchemaNode) (el : SelectEl) :
    (addAll d entries el).options.map OptionEl.label
      = el.options.map OptionEl.label ++ entries.map (fun s => (s.name, s.name, false)) := by
  induction entries generalizing el with
  | nil => simp [addAll]
  | cons s rest ih =>
    have := ih (el.add (newOption d s))
    simp only [addAll, List.foldl_cons] at this ⊢
    rw [this]
    simp [SelectEl.add, selectednessSetting_label, newOption_label]

theorem addAll_frame (d : JsVal) (entries : List SchemaNode) (el : SelectEl) :
    (addAll d entries el).changeListeners = el.changeListeners
      ∧ (addAll d entries el).connected = el.connected := by
  induction entries generalizing el with
  | nil => simp [addAll]
  | cons s rest ih =>
    have := ih (el.add (newOption d s))
    simp only [addAll, List.foldl_cons] at this ⊢
    simpa [SelectEl.add] using this

theorem mount_of_condition (getSocket : String → Option Socket) (db : DbRef) (node : Node)
    (b : Bool) (h : startNodeCondition db = .ok b) :
    mount getSocket db node = .normal (mounted getSocket db node b) := by
  simp [mount, builder, h, controlSetup, putData, World.render, Node.addOutput,
    Node.addControl, Completion.bind, nameControl, SelectEl.addChangeListener, mounted,
    renderedSelect, SelectEl.value]

theorem startNodeCondition_ok (db : DbRef) (h : db ≠ .null) :
    ∃ b, startNodeCondition db = .ok b := by
  cases db with
  | undefined => exact ⟨false, rfl⟩
  | null => exact absurd rfl h
  | obj r => exact ⟨_, rfl⟩

theorem populate_frame (entries : List SchemaNode) (w : World) :
    (populate entries w).state.node = w.node
      ∧ (populate entries w).state.scopedDbNode = w.scopedDbNode
      ∧ (populate entries w).state.pendingThen = w.pendingThen := by
  induction entries generalizing w with
  | nil => simp [populate, Completion.state]
  | cons s rest ih =>
    cases hdb : w.scopedDbNode with
    | undefined => simp [populate, hdb, Completion.state]
    | null => simp [populate, hdb, Completion.state]
    | obj r =>
      simp only [populate, hdb]
      have := ih { w with element := w.element.add (newOption r.dataType s) }
      simpa [hdb] using this

theorem fetchSettles_node (outcome : FetchOutcome) (w : World) :
    (fetchSettles outcome w).state.node = w.node
      ∧ (fetchSettles outcome w).state.scopedDbNode = w.scopedDbNode := by
  unfold fetchSettles
  split
  · simp [Completion.state]
  · cases outcome with
    | resolved result =>
      have := populate_frame (keptEntries result) { w with pendingThen := ‹Nat› }
      exact ⟨this.1, this.2.1⟩
    | rejected => simp [Completion.state]

theorem fetchSettles_mounted_resolved (getSocket : String → Option Socket) (r : DbNode)
    (node : Node) (b : Bool) (result : List SchemaNode) :
    fetchSettles (.resolved result) (mounted getSocket (.obj r) node b)
      = .normal { mounted getSocket (.obj r) node b with
          element := addAll r.dataType (keptEntries result)
            { renderedSelect with changeListeners := 1 },
          pendingThen := 0 } := by
  simp only [fetchSettles, mounted, thenCallback]
  rw [populate_obj r _ _ rfl]
  rfl

theorem addAll_eq_foldl_map (d : JsVal) (entries : List SchemaNode) (el : SelectEl) :
    addAll d entries el = (entries.map (newOption d)).foldl SelectEl.add el := by
  simp [addAll, List.foldl_map]

theorem newOption_value (d : JsVal) (s : SchemaNode) : (newOption d s).value = s.name := by
  have := newOption_label d s
  simp only [OptionEl.label, Prod.mk.injEq] at this
  exact this.2.1

theorem addAll_unselected (d : JsVal) (entries : List SchemaNode) (el : SelectEl) (v : String)
    (hv : selectedValues el.options = [v])
    (hno : ∀ s ∈ entries, (newOption d s).selected = false) :
    (addAll d entries el).options = el.options ++ entries.map (newOption d) := by
  induction entries generalizing el with
  | nil => simp [addAll]
  | cons s rest ih =>
    have hs := hno s (List.mem_cons_self _ _)
    have hadd : (el.add (newOption d s)).options = el.options ++ [newOption d s] :=
      selectednessSetting_append_unselected el.options _ v hs hv
    have hv2 : selectedValues (el.add (newOption d s)).options = [v] := by
      rw [hadd]
      simpa [selectedValues, List.filter_append, hs] using hv
    have := ih (el.add (newOption d s)) hv2 (fun t ht => hno t (List.mem_cons_of_mem _ ht))
    simp only [addAll, List.foldl_cons] at this ⊢
    rw [this, hadd]
    simp

theorem addAll_selectedValues (name : String) (entries : List SchemaNode) (el : SelectEl)
    (v : String) (hv : selectedValues el.options = [v]) :
    selectedValues (addAll (.str name) entries el).options
      = [if entries.any (fun s => decide (s.name = name)) then name else v] := by
  induction entries generalizing el v with
  | nil => simpa [addAll] using hv
  | cons s rest ih =>
    by_cases hs : s.name = name
    · have hsel : (newOption (.str name) s).selected = true :=
        (newOption_selected _ s).2 ⟨by simp, by simp, by simp [hs]⟩
      have hv2 : selectedValues (el.add (newOption (.str name) s)).options = [name] := by
        have := selectedValues_add_selected el.options _ hsel
        rw [newOption_value, hs] at this
        exact this
      have := ih (el.add (newOption (.str name) s)) name hv2
      simp only [addAll, List.foldl_cons] at this ⊢
      rw [this]
      simp [hs]
    · have hsel : (newOption (.str name) s).selected = false := by
        cases h : (newOption (.str name) s).selected with
        | false => rfl
        | true =>
          have := ((newOption_selected _ s).1 h).2.2
          exact absurd (JsVal.str.inj this).symm hs
      have hadd : (el.add (newOption (.str name) s)).options
          = el.options ++ [newOption (.str name) s] :=
        selectednessSetting_append_unselected el.options _ v hsel hv
      have hv2 : selectedValues (el.add (newOption (.str name) s)).options = [v] := by
        rw [hadd]
        simpa [selectedValues, List.filter_append, hsel] using hv
      have := ih (el.add (newOption (.str name) s)) v hv2
      simp only [addAll, List.foldl_cons] at this ⊢
      rw [this]
      simp [hs]

theorem changeListener_wired (ci : Nat) (w : World) (r : DbNode) (c : Control)
    (hc : w.node.controls[ci]? = some c) (hp : c.parent = true)
    (hd : w.node.data.get "dbNode" = .scopedDbNode) (hr : w.scopedDbNode = .obj r) :
    changeListener ci w
      = .normal { w with
          node := { w.node with data := w.node.data.put "dataType" (.val (.str w.element.value)) },
          scopedDbNode := .obj { r with dataType := .str w.element.value } } := by
  have hd2 : (w.node.data.put "dataType" (.val (.str w.element.value))).get "dbNode"
      = .scopedDbNode := by
    rw [Data.get_put_other _ _ _ _ (by decide)]
    exact hd
  simp [changeListener, putData, hc, hp, Completion.bind, writeDataType, hd2, hr]

theorem populate_detach (entries : List SchemaNode) (w : World) :
    populate entries w.detach = (populate entries w).map World.detach := by
  induction entries generalizing w with
  | nil => rfl
  | cons s rest ih =>
    cases hdb : w.scopedDbNode with
    | undefined => simp [populate, hdb, World.detach, Completion.map]
    | null => simp [populate, hdb, World.detach, Completion.map]
    | obj r =>
      have := ih { w with element := w.element.add (newOption r.dataType s) }
      simp only [populate, hdb, World.detach] at this ⊢
      exact this

/-! ## The claims -/

/-- C1: the builder sets `node.isStartNode` to true exactly when the backing record is
defined and its `isStartNodeOfContainer` is neither `undefined` nor `null`; in every other
case, an undefined record included, it sets it to false. -/
theorem builder_isStartNode (getSocket : String → Option Socket) (node : Node) :
    (∀ r : DbNode, ∃ built, builder getSocket (.obj r) node = .normal built
        ∧ built.isStartNode = some (decide (r.isStartNodeOfContainer ≠ .undefined
            ∧ r.isStartNodeOfContainer ≠ .null)))
    ∧ ∃ built, builder getSocket .undefined node = .normal built
        ∧ built.isStartNode = some false := by
  refine ⟨fun r => ⟨_, rfl, ?_⟩, ⟨_, rfl, rfl⟩⟩
  simp [Node.addControl, Node.addOutput, Bool.decide_and]

/-- C2: for a defined backing record, once the fetch resolves the option list is the disabled
placeholder `-` followed by one option per entry whose category is not `html`, in catalog
order, with text and value equal to the entry name; the catalog Person/core, Page/html,
Order/core gives placeholder, Person, Order. -/
theorem options_after_fetch (getSocket : String → Option Socket) (node : Node) (r : DbNode)
    (result : List SchemaNode) :
    (∃ w, (mount getSocket (.obj r) node).bind (fetchSettles (.resolved result)) = .normal w
      ∧ w.element.options.map OptionEl.label
          = ("-", "-", true) ::
            (result.filter (fun el => decide (el.category ≠ .str "html"))).map
              (fun s => (s.name, s.name, false)))
    ∧ ∃ w, (mount getSocket (.obj r) node).bind (fetchSettles (.resolved
          [⟨"Person", .str "core"⟩, ⟨"Page", .str "html"⟩, ⟨"Order", .str "core"⟩])) = .normal w
      ∧ w.element.options.map OptionEl.label
          = [("-", "-", true), ("Person", "Person", false), ("Order", "Order", false)] := by
  have key : ∀ result : List SchemaNode,
      ∃ w, (mount getSocket (.obj r) node).bind (fetchSettles (.resolved result)) = .normal w
        ∧ w.element.options.map OptionEl.label
            = ("-", "-", true) :: (keptEntries result).map (fun s => (s.name, s.name, false)) := by
    intro result
    rw [mount_of_condition getSocket (.obj r) node _ rfl]
    refine ⟨_, fetchSettles_mounted_resolved getSocket r node _ result, ?_⟩
    simp only [addAll_label]
    rfl
  refine ⟨key result, ?_⟩
  obtain ⟨w, hw, hl⟩ := key [⟨"Person", .str "core"⟩, ⟨"Page", .str "html"⟩, ⟨"Order", .str "core"⟩]
  refine ⟨w, hw, ?_⟩
  rw [hl]
  decide

/-- C5: for a defined or undefined backing record, the builder on a fresh node returns a
descriptor with exactly one output, titled `DataTarget` and allowing multiple connections,
exactly one control, and no inputs; whatever the catalog fetch does later leaves these as
they are. -/
theorem descriptor_shape (getSocket : String → Option Socket) (title : String) (db : DbRef)
    (hdb : db ≠ .null) :
    (∃ built, builder getSocket db (Node.fresh title) = .normal built
      ∧ built.outputs = [{ title := "DataTarget", socket := getSocket "dataTarget",
                           multipleConnections := true }]
      ∧ built.controls.map (fun c => c.html) = [controlHtml]
      ∧ built.inputs = [])
    ∧ ∀ outcome : FetchOutcome,
        ((mount getSocket db (Node.fresh title)).bind (fetchSettles outcome)).state.node.outputs
            = [{ title := "DataTarget", socket := getSocket "dataTarget",
                 multipleConnections := true }]
        ∧ ((mount getSocket db (Node.fresh title)).bind
              (fetchSettles outcome)).state.node.controls.length = 1
        ∧ ((mount getSocket db (Node.fresh title)).bind
              (fetchSettles outcome)).state.node.inputs = [] := by
  obtain ⟨b, hb⟩ := startNodeCondition_ok db hdb
  constructor
  · refine ⟨_, by simp only [builder, hb]; rfl, ?_⟩
    simp [Node.addControl, Node.addOutput, Node.fresh]
  · intro outcome
    rw [mount_of_condition getSocket db _ b hb]
    simp only [Completion.bind, (fetchSettles_node outcome _).1]
    simp [mounted, Node.fresh]

/-- C5 at an undefined backing record and a fresh node. -/
theorem descriptor_shape_witness :
    ((DbRef.undefined ≠ DbRef.null)
      ∧ ∃ built, builder (fun _ => none) .undefined (Node.fresh "TypeQuery") = .normal built
        ∧ built.inputs = []) :=
  ⟨by decide,
   let ⟨⟨built, hb, _, _, hi⟩, _⟩ :=
     descriptor_shape (fun _ => none) "TypeQuery" .undefined (by decide)
   ⟨built, hb, hi⟩⟩

/-- C6: when the catalog fetch rejects, the builder and the control handler have completed
without raising, settling the promise raises nothing, and the option list is still the single
placeholder option. -/
theorem fetch_rejected (getSocket : String → Option Socket) (node : Node) (db : DbRef)
    (hdb : db ≠ .null) :
    (builder getSocket db node).raised = none
    ∧ ∃ w, mount getSocket db node = .normal w
      ∧ ∃ w', fetchSettles .rejected w = .normal w'
        ∧ w'.element.options
            = [{ text := "-", value := "-", disabled := true, selected := true }] := by
  obtain ⟨b, hb⟩ := startNodeCondition_ok db hdb
  refine ⟨by simp [builder, hb, Completion.raised], _, mount_of_condition getSocket db node b hb,
    _, rfl, rfl⟩

/-- C6 at a record whose data type is Order and a fresh node. -/
theorem fetch_rejected_witness :
    (DbRef.obj ⟨.str "Order", .null⟩ ≠ DbRef.null)
      ∧ (builder (fun _ => none) (.obj ⟨.str "Order", .null⟩) (Node.fresh "TypeQuery")).raised
          = none :=
  ⟨by decide,
   (fetch_rejected (fun _ => none) (Node.fresh "TypeQuery") (.obj ⟨.str "Order", .null⟩)
      (by decide)).1⟩

/-- C3: for a defined backing record the options the population step appends are marked
selected exactly when `dataType` is neither `undefined` nor `null` and strictly equals the
entry name. When `dataType` names a kept entry, that name is the value of the one selected
option afterwards; when `dataType` is `null` or names no kept entry, no appended option is
marked and the placeholder stays the selected option. -/
theorem selected_option (getSocket : String → Option Socket) (node : Node) (r : DbNode)
    (result : List SchemaNode) :
    ∃ w, (mount getSocket (.obj r) node).bind (fetchSettles (.resolved result)) = .normal w
      ∧ w.element
          = ((result.filter (fun el => decide (el.category ≠ .str "html"))).map
              (newOption r.dataType)).foldl SelectEl.add
              (mount getSocket (.obj r) node).state.element
      ∧ (∀ o ∈ (result.filter (fun el => decide (el.category ≠ .str "html"))).map
              (newOption r.dataType),
          o.selected = true
            ↔ r.dataType ≠ .undefined ∧ r.dataType ≠ .null ∧ r.dataType = .str o.value)
      ∧ (∀ name : String, r.dataType = .str name →
          (∃ s ∈ result, s.category ≠ .str "html" ∧ s.name = name) →
          w.element.value = name
            ∧ (w.element.options.filter (fun o => o.selected)).map (fun o => o.value) = [name])
      ∧ ((r.dataType = .null
            ∨ ∀ s ∈ result, s.category ≠ .str "html" → r.dataType ≠ .str s.name) →
          (∀ o ∈ (result.filter (fun el => decide (el.category ≠ .str "html"))).map
              (newOption r.dataType), o.selected = false)
            ∧ w.element.options
                = { text := "-", value := "-", disabled := true, selected := true } ::
                  (result.filter (fun el => decide (el.category ≠ .str "html"))).map
                    (newOption r.dataType)
            ∧ w.element.value = "-") := by
  rw [mount_of_condition getSocket (.obj r) node _ rfl]
  refine ⟨_, fetchSettles_mounted_resolved getSocket r node _ result, ?_, ?_, ?_, ?_⟩
  · exact addAll_eq_foldl_map _ _ _
  · intro o ho
    obtain ⟨s, _, rfl⟩ := List.mem_map.1 ho
    rw [newOption_value]
    exact newOption_selected _ s
  · intro name hname hex
    have hany : (keptEntries result).any (fun s => decide (s.name = name)) = true := by
      obtain ⟨s, hs, hc, hn⟩ := hex
      simp only [List.any_eq_true, decide_eq_true_eq]
      exact ⟨s, by simp [keptEntries, hs, hc], hn⟩
    have hsv := addAll_selectedValues name (keptEntries result)
      { renderedSelect with changeListeners := 1 } "-" rfl
    rw [if_pos hany] at hsv
    simp only [hname]
    exact ⟨SelectEl.value_of_selectedValues _ _ hsv, hsv⟩
  · intro hcase
    have hno : ∀ s ∈ keptEntries result, (newOption r.dataType s).selected = false := by
      intro s hs
      have hs2 : s ∈ result ∧ s.category ≠ .str "html" := by
        simpa [keptEntries] using hs
      cases h : (newOption r.dataType s).selected with
      | false => rfl
      | true =>
        have hm := (newOption_selected _ s).1 h
        rcases hcase with hnull | hnone
        · exact absurd hnull hm.2.1
        · exact absurd hm.2.2 (hnone s hs2.1 hs2.2)
    have hopts := addAll_unselected r.dataType (keptEntries result)
      { renderedSelect with changeListeners := 1 } "-" rfl hno
    refine ⟨?_, hopts, ?_⟩
    · intro o ho
      obtain ⟨s, hs, rfl⟩ := List.mem_map.1 ho
      exact hno s hs
    · apply SelectEl.value_of_selectedValues
      show selectedValues (addAll r.dataType (keptEntries result) _).options = ["-"]
      rw [hopts]
      have hfil : ((keptEntries result).map (newOption r.dataType)).filter
          (fun o => o.selected) = [] := by
        rw [List.filter_eq_nil_iff]
        intro o ho
        obtain ⟨s, hs, rfl⟩ := List.mem_map.1 ho
        simp [hno s hs]
      simp [selectedValues, List.filter_append, hfil, renderedSelect]

/-- C3 at the catalog Person/core, Page/html, Order/core with data type Order: the dropdown
value after population is Order. -/
theorem selected_option_witness :
    ∃ w, (mount (fun _ => none) (.obj ⟨.str "Order", .null⟩) (Node.fresh "TypeQuery")).bind
          (fetchSettles (.resolved
            [⟨"Person", .str "core"⟩, ⟨"Page", .str "html"⟩, ⟨"Order", .str "core"⟩]))
        = .normal w
      ∧ w.element.value = "Order" :=
  let ⟨w, hw, _, _, hsel, _⟩ :=
    selected_option (fun _ => none) (Node.fresh "TypeQuery") ⟨.str "Order", .null⟩
      [⟨"Person", .str "core"⟩, ⟨"Page", .str "html"⟩, ⟨"Order", .str "core"⟩]
  ⟨w, hw, (hsel "Order" rfl ⟨⟨"Order", .str "core"⟩, by decide, by decide, rfl⟩).1⟩

/-- C4: for a defined backing record, handling a `change` event while the dropdown value is
`v` leaves both the stored data entry `dataType` and `dbNode.dataType` equal to `v`, in the
one run of the listener. -/
theorem change_writes_through (ci : Nat) (w : World) (r : DbNode) (v : String)
    (hc : ∃ c, w.node.controls[ci]? = some c ∧ c.parent = true)
    (hd : w.node.data.get "dbNode" = .scopedDbNode)
    (hr : w.scopedDbNode = .obj r) (hv : w.element.value = v) :
    ∃ w', changeListener ci w = .normal w'
      ∧ w'.node.data.get "dataType" = .val (.str v)
      ∧ w'.scopedDbNode = .obj { r with dataType := .str v }
      ∧ w'.element = w.element := by
  obtain ⟨c, hc, hp⟩ := hc
  refine ⟨_, changeListener_wired ci w r c hc hp hd hr, ?_, ?_, rfl⟩
  · simp only [hv]
    exact Data.get_put_same _ _ _
  · simp only [hv]

/-- C4 at a mounted node whose dropdown shows Person: the listener stores Person in both
places. -/
theorem change_writes_through_witness :
    ∃ w', changeListener 0
          { mounted (fun _ => none) (.obj ⟨.null, .null⟩) (Node.fresh "TypeQuery") false with
            element := { options := [⟨"-", "-", true, false⟩, ⟨"Person", "Person", false, true⟩],
                         changeListeners := 1, connected := true } }
        = .normal w'
      ∧ w'.node.data.get "dataType" = .val (.str "Person")
      ∧ w'.scopedDbNode = .obj ⟨.str "Person", .null⟩ :=
  let ⟨w', h, hdata, hdb, _⟩ :=
    change_writes_through 0
      { mounted (fun _ => none) (.obj ⟨.null, .null⟩) (Node.fresh "TypeQuery") false with
        element := { options := [⟨"-", "-", true, false⟩, ⟨"Person", "Person", false, true⟩],
                     changeListeners := 1, connected := true } }
      ⟨.null, .null⟩ "Person" ⟨_, rfl, rfl⟩ (by decide) rfl (by decide)
  ⟨w', h, hdata, hdb⟩

/-- C8: for a defined backing record, running the change listener a second time with the
same dropdown value leaves the stored data and the backing record as the first run left
them. -/
theorem change_idempotent (ci : Nat) (w : World) (r : DbNode) (v : String)
    (hc : ∃ c, w.node.controls[ci]? = some c ∧ c.parent = true)
    (hd : w.node.data.get "dbNode" = .scopedDbNode)
    (hr : w.scopedDbNode = .obj r) (hv : w.element.value = v) :
    ∃ w', changeListener ci w = .normal w' ∧ w'.element.value = v
      ∧ changeListener ci w' = .normal w' := by
  obtain ⟨c, hc, hp⟩ := hc
  refine ⟨_, changeListener_wired ci w r c hc hp hd hr, hv, ?_⟩
  have hd2 : (w.node.data.put "dataType" (.val (.str w.element.value))).get "dbNode"
      = .scopedDbNode := by
    rw [Data.get_put_other _ _ _ _ (by decide)]
    exact hd
  have h2 := changeListener_wired ci
    { w with
      node := { w.node with data := w.node.data.put "dataType" (.val (.str w.element.value)) },
      scopedDbNode := .obj { r with dataType := .str w.element.value } }
    { r with dataType := .str w.element.value } c hc hp hd2 rfl
  rw [h2]
  simp [Data.put_put_same]

/-- C8 at a mounted node whose dropdown shows Person. -/
theorem change_idempotent_witness :
    ∃ w', changeListener 0
          { mounted (fun _ => none) (.obj ⟨.null, .null⟩) (Node.fresh "TypeQuery") false with
            element := { options := [⟨"-", "-", true, false⟩, ⟨"Person", "Person", false, true⟩],
                         changeListeners := 1, connected := true } }
        = .normal w'
      ∧ changeListener 0 w' = .normal w' :=
  let ⟨w', h, _, h2⟩ :=
    change_idempotent 0
      { mounted (fun _ => none) (.obj ⟨.null, .null⟩) (Node.fresh "TypeQuery") false with
        element := { options := [⟨"-", "-", true, false⟩, ⟨"Person", "Person", false, true⟩],
                     changeListeners := 1, connected := true } }
      ⟨.null, .null⟩ "Person" ⟨_, rfl, rfl⟩ (by decide) rfl (by decide)
  ⟨w', h, h2⟩

/-- C7, evaluated on the code: with `scopedDbNode` undefined the builder completes and sets
`isStartNode` to false, but the population step raises a `TypeError` at the first kept entry,
before adding its option, and the change listener raises a `TypeError` after it has stored
the dropdown value. -/
theorem undefined_dbNode_raises (getSocket : String → Option Socket) (node : Node) :
    ∃ w, mount getSocket .undefined node = .normal w
      ∧ w.node.isStartNode = some false
      ∧ (fetchSettles (.resolved [⟨"Person", .str "core"⟩]) w).raised = some .typeError
      ∧ (fetchSettles (.resolved [⟨"Person", .str "core"⟩]) w).state.element.options
          = [{ text := "-", value := "-", disabled := true, selected := true }]
      ∧ (changeListener node.controls.length w).raised = some .typeError
      ∧ (changeListener node.controls.length w).state.node.data.get "dataType"
          = .val (.str "-") := by
  have hd : Data.get (((node.data.put "dataType" (.val (.str "-"))).put "dbNode"
      .scopedDbNode).put "dataType" (.val (.str "-"))) "dbNode" = .scopedDbNode := by
    rw [Data.get_put_other _ _ _ _ (by decide)]
    exact Data.get_put_same _ _ _
  refine ⟨_, mount_of_condition getSocket .undefined node false rfl, rfl, rfl, rfl, ?_, ?_⟩
  · simp [changeListener, putData, mounted, Completion.bind, writeDataType, SelectEl.value,
      renderedSelect, hd, Completion.raised]
  · simp [changeListener, putData, mounted, Completion.bind, writeDataType, SelectEl.value,
      renderedSelect, hd, Completion.state, Data.get_put_same]

/-- C9, the claim fails: after the element has left the document, the late population step
still appends to it; the detached dropdown goes from one option to two. -/
theorem late_population_not_noop :
    (mount (fun _ => none) (.obj ⟨.null, .null⟩) (Node.fresh "TypeQuery")).state.detach.element.connected
        = false
      ∧ (fetchSettles (.resolved [⟨"Person", .str "core"⟩])
          (mount (fun _ => none) (.obj ⟨.null, .null⟩)
            (Node.fresh "TypeQuery")).state.detach).state.element.options
        = [{ text := "-", value := "-", disabled := true, selected := true },
           { text := "Person", value := "Person", disabled := false, selected := false }]
      ∧ (fetchSettles (.resolved [⟨"Person", .str "core"⟩])
          (mount (fun _ => none) (.obj ⟨.null, .null⟩)
            (Node.fresh "TypeQuery")).state.detach).state
        ≠ (mount (fun _ => none) (.obj ⟨.null, .null⟩) (Node.fresh "TypeQuery")).state.detach := by
  decide

/-- C9 as amended: the population step makes no check of its target. On an element that has
left the document it does exactly what it does on an attached one, and with a defined backing
record it raises nothing and appends one option per kept entry to that element. -/
theorem late_population_unguarded (result : List SchemaNode) (w : World) :
    thenCallback result w.detach = (thenCallback result w).map World.detach
    ∧ ∀ r : DbNode, w.scopedDbNode = .obj r →
        ∃ w', thenCallback result w.detach = .normal w'
          ∧ w'.element.connected = false
          ∧ w'.element.options.map OptionEl.label
              = w.element.options.map OptionEl.label ++
                (result.filter (fun el => decide (el.category ≠ .str "html"))).map
                  (fun s => (s.name, s.name, false)) := by
  refine ⟨populate_detach _ w, fun r hr => ?_⟩
  have h := populate_obj r (keptEntries result) w.detach hr
  refine ⟨_, h, ?_, ?_⟩
  · exact (addAll_frame _ _ _).2
  · exact addAll_label _ _ _

/-- C9 as amended, at a mounted node taken off the document and a catalog of one entry. -/
theorem late_population_unguarded_witness :
    ∃ w', thenCallback [⟨"Person", .str "core"⟩]
          (mounted (fun _ => none) (.obj ⟨.null, .null⟩) (Node.fresh "TypeQuery") false).detach
        = .normal w'
      ∧ w'.element.connected = false
      ∧ w'.element.options.map OptionEl.label
          = [("-", "-", true), ("Person", "Person", false)] :=
  (late_population_unguarded [⟨"Person", .str "core"⟩]
    (mounted (fun _ => none) (.obj ⟨.null, .null⟩) (Node.fresh "TypeQuery") false)).2
    ⟨.null, .null⟩ rfl

/-- C10: the population step writes neither `node.data` nor the backing record. The stored
`dataType` is the dropdown value read when the control was set up, the placeholder value `-`,
and it is still that after the fetch callback; with `dataType` Order and the catalog
Person/core, Page/html, Order/core the dropdown then shows Order while the stored value is
still `-`. -/
theorem population_frame :
    (∀ (result : List SchemaNode) (w : World),
        (thenCallback result w).state.node = w.node
          ∧ (thenCallback result w).state.scopedDbNode = w.scopedDbNode)
    ∧ (∀ (getSocket : String → Option Socket) (node : Node) (r : DbNode)
          (result : List SchemaNode),
        ∃ w₀ w, mount getSocket (.obj r) node = .normal w₀
          ∧ w₀.node.data.get "dataType" = .val (.str "-")
          ∧ fetchSettles (.resolved result) w₀ = .normal w
          ∧ w.node.data.get "dataType" = .val (.str "-")
          ∧ w.scopedDbNode = .obj r)
    ∧ ∃ w, (mount (fun _ => none) (.obj ⟨.str "Order", .null⟩) (Node.fresh "TypeQuery")).bind
              (fetchSettles (.resolved
                [⟨"Person", .str "core"⟩, ⟨"Page", .str "html"⟩, ⟨"Order", .str "core"⟩]))
            = .normal w
        ∧ w.element.value = "Order"
        ∧ w.node.data.get "dataType" = .val (.str "-")
        ∧ w.scopedDbNode = .obj ⟨.str "Order", .null⟩ := by
  refine ⟨fun result w => ?_, fun getSocket node r result => ?_, ?_⟩
  · have := populate_frame (keptEntries result) w
    exact ⟨this.1, this.2.1⟩
  · have hd : Data.get ((node.data.put "dataType" (.val (.str "-"))).put "dbNode"
        .scopedDbNode) "dataType" = .val (.str "-") := by
      rw [Data.get_put_other _ _ _ _ (by decide)]
      exact Data.get_put_same _ _ _
    exact ⟨_, _, mount_of_condition getSocket (.obj r) node _ rfl, hd,
      fetchSettles_mounted_resolved getSocket r node _ result, hd, rfl⟩
  · exact ⟨_, rfl, by decide, by decide, rfl⟩

end FlowTypeQuery
